import Mathlib

/-!
# Verification of the pdf-invoice extraction pipeline

A shallow embedding, in Lean 4, of the core of the `pdf-invoice` repository:

* `src/services/groqService.ts` — `sanitizeExtractedData`, `sanitizeLineItems`,
  `validateAndFormatDate`;
* `src/services/aiServiceManager.ts` — `AIServiceManager.extractData`,
  `tryGemini`, `tryGroq`, `validateExtractedData`, `extractRetryDelay`,
  `generateMockInvoiceData`;
* `src/routes/extractRoutes.ts` — the `POST /extract` handler (the part after
  PDF text extraction);
* `src/routes/uploadRoutes.ts` (Vercel-Blob variant) — the `POST /upload`
  handler's database-error branch;
* `components/ExtractionForm.tsx` — `updateLineItem`.

Modelling conventions:

* JavaScript numbers are modelled as `ℚ`.  A value fed to `parseFloat` is
  modelled by its parse result `Option ℚ`, with `none` standing for `NaN`
  (the result of parsing `undefined`, `null` or a non-numeric string).
  JSON.parse never produces `NaN`/`Infinity`, so the model's input domain
  consists of finite numbers and of strings that parse to finite numbers.
* JavaScript's falsy test on `x || fb` is explicit: for numbers, `NaN` and
  `0` select the fallback; for strings, `""` selects the fallback.
* Absent (`undefined`/`null`) fields are `Option.none`.
* `new Date(s)` followed by `toISOString().split('T')[0]` is modelled by a
  strict ISO `YYYY-MM-DD` parser/formatter (the documented, portable part of
  the ECMAScript date grammar used by this code path; date-only ISO strings
  are parsed as UTC, so parse/format round-trips).
* The wall clock (`Date.now()` and the current UTC date) is passed as an
  explicit `Clock` value.
* The two provider services (`extractDataWithGemini` / `extractDataWithGroq`)
  are modelled as oracles `String → ℕ → CallResult`: for a given input text
  and attempt number the call either returns a candidate or throws an error
  carrying an optional HTTP status and a message.
* `await delay(ms)` is modelled by recording `ms` in an explicit trace.
-/

/-! ## JavaScript strings: whitespace, trim, decimal rendering -/

/-- Whitespace characters recognised by the model of `String.prototype.trim`. -/
def isWS (c : Char) : Bool := c = ' ' || c = '\t' || c = '\n' || c = '\r'

/-- Model of JavaScript `s.trim()`: drop whitespace from both ends. -/
def jsTrim (s : String) : String :=
  ⟨(((s.data.dropWhile isWS).reverse.dropWhile isWS).reverse)⟩

/-- The decimal digit characters, used to render numbers and dates. -/
def digitChar (n : ℕ) : Char :=
  match n with
  | 0 => '0' | 1 => '1' | 2 => '2' | 3 => '3' | 4 => '4'
  | 5 => '5' | 6 => '6' | 7 => '7' | 8 => '8' | _ => '9'

/-- Numeric value of a digit character (used by the model's parsers). -/
def digitVal (c : Char) : ℕ := c.toNat - 48

/-- Decimal rendering of a natural number, fuelled to be structurally
recursive; `fuel ≥ n` makes it the usual base-10 rendering. -/
def natToDigitsAux : ℕ → ℕ → List Char
  | 0, n => [digitChar n]
  | fuel + 1, n => if n < 10 then [digitChar n] else natToDigitsAux fuel (n / 10) ++ [digitChar (n % 10)]

/-- Model of JavaScript's number-to-string coercion for naturals
(as in the template literals `MOCK-${Date.now()}` and `INV-${Date.now()}`). -/
def natToString (n : ℕ) : String := ⟨natToDigitsAux n n⟩

lemma dropWhile_dropWhile (p : Char → Bool) (l : List Char) :
    (l.dropWhile p).dropWhile p = l.dropWhile p := by
  induction l with
  | nil => simp
  | cons a l ih =>
    by_cases h : p a
    · simpa [List.dropWhile, h] using ih
    · simp [List.dropWhile, h]

lemma exists_append_dropWhile (p : Char → Bool) (l : List Char) :
    ∃ u, u ++ l.dropWhile p = l := by
  induction l with
  | nil => exact ⟨[], rfl⟩
  | cons a l ih =>
    by_cases h : p a
    · obtain ⟨u, hu⟩ := ih
      exact ⟨a :: u, by simp [List.dropWhile, h, hu]⟩
    · exact ⟨[], by simp [List.dropWhile, h]⟩

lemma length_dropWhile_le (p : Char → Bool) (l : List Char) :
    (l.dropWhile p).length ≤ l.length := by
  induction l with
  | nil => simp
  | cons b l ih =>
    by_cases hb : p b
    · simp only [List.dropWhile, hb]
      calc (List.dropWhile p l).length ≤ l.length := ih
        _ ≤ (b :: l).length := by simp
    · simp [List.dropWhile, hb]

lemma dropWhile_eq_self_of_prefix_of (p : Char → Bool) {r m : List Char}
    (hpre : ∃ t, r ++ t = m) (hm : m.dropWhile p = m) :
    r.dropWhile p = r := by
  cases r with
  | nil => rfl
  | cons a r' =>
    obtain ⟨t, ht⟩ := hpre
    have hm' : List.dropWhile p (a :: (r' ++ t)) = a :: (r' ++ t) := by
      rw [← List.cons_append, ht]; exact hm
    have ha : p a = false := by
      by_cases hpa : p a
      · exfalso
        simp only [List.dropWhile, hpa] at hm'
        have hlen := length_dropWhile_le p (r' ++ t)
        rw [hm'] at hlen
        simp at hlen
      · simpa using hpa
    simp [List.dropWhile, ha]

lemma dropWhile_eq_self_of_nonmem (p : Char → Bool) (l : List Char)
    (h : ∀ c ∈ l, p c = false) : l.dropWhile p = l := by
  cases l with
  | nil => rfl
  | cons a l' => simp [List.dropWhile, h a (by simp)]

/-- `jsTrim` is idempotent. -/
lemma jsTrim_jsTrim (s : String) : jsTrim (jsTrim s) = jsTrim s := by
  unfold jsTrim
  simp only
  set m := s.data.dropWhile isWS with hm
  have hmfix : m.dropWhile isWS = m := by rw [hm]; exact dropWhile_dropWhile isWS s.data
  set t := (m.reverse.dropWhile isWS).reverse with hT
  -- `t` is a prefix of `m`, hence still has no leading whitespace
  have hpre : ∃ u, t ++ u = m := by
    obtain ⟨u, hu⟩ := exists_append_dropWhile isWS m.reverse
    refine ⟨u.reverse, ?_⟩
    have := congrArg List.reverse hu
    simpa [hT] using this
  have ht1 : t.dropWhile isWS = t :=
    dropWhile_eq_self_of_prefix_of isWS hpre hmfix
  have ht2 : t.reverse.dropWhile isWS = t.reverse := by
    rw [hT]
    simp only [List.reverse_reverse]
    exact dropWhile_dropWhile isWS m.reverse
  rw [ht1, ht2]
  simp [hT]

/-- A string all of whose characters are non-whitespace is fixed by `jsTrim`. -/
lemma jsTrim_eq_self_of_nonWS (s : String) (h : ∀ c ∈ s.data, isWS c = false) :
    jsTrim s = s := by
  unfold jsTrim
  have h1 : s.data.dropWhile isWS = s.data := dropWhile_eq_self_of_nonmem isWS s.data h
  have h2 : s.data.reverse.dropWhile isWS = s.data.reverse :=
    dropWhile_eq_self_of_nonmem isWS s.data.reverse (by intro c hc; exact h c (by simpa using hc))
  rw [h1, h2]
  simp

lemma digitChar_isDigit (n : ℕ) : (digitChar n).isDigit = true := by
  unfold digitChar
  split <;> decide

lemma digitChar_not_isWS (n : ℕ) : isWS (digitChar n) = false := by
  unfold digitChar
  split <;> decide

lemma digitVal_digitChar (n : ℕ) (h : n ≤ 9) : digitVal (digitChar n) = n := by
  interval_cases n <;> decide

lemma natToDigitsAux_not_isWS (fuel n : ℕ) :
    ∀ c ∈ natToDigitsAux fuel n, isWS c = false := by
  induction fuel generalizing n with
  | zero => intro c hc; simp [natToDigitsAux] at hc; subst hc; exact digitChar_not_isWS n
  | succ fuel ih =>
    intro c hc
    by_cases h : n < 10
    · simp [natToDigitsAux, h] at hc; subst hc; exact digitChar_not_isWS n
    · simp only [natToDigitsAux, if_neg h, List.mem_append, List.mem_singleton] at hc
      rcases hc with hc | hc
      · exact ih (n / 10) c hc
      · subst hc; exact digitChar_not_isWS (n % 10)

lemma natToDigitsAux_ne_nil (fuel n : ℕ) : natToDigitsAux fuel n ≠ [] := by
  cases fuel with
  | zero => simp [natToDigitsAux]
  | succ fuel =>
    by_cases h : n < 10 <;> simp [natToDigitsAux, h]

/-! ## Dates: model of `new Date(s)` / `toISOString().split('T')[0]`

`validateAndFormatDate` in `groqService.ts` parses a string with `new Date`
and re-renders `YYYY-MM-DD`.  The model implements the strict date-only ISO
format (the documented, portable part of the ECMAScript date grammar used by
this code path; date-only ISO strings are parsed as UTC, so parse and format
round-trip). -/

structure CivilDate where
  year : ℕ
  month : ℕ
  day : ℕ
  deriving DecidableEq

/-- Decimal digit test on a character (`0`–`9`). -/
def isDigitChar (c : Char) : Bool := 48 ≤ c.toNat && c.toNat ≤ 57

/-- Gregorian leap-year rule (as used by ECMAScript UTC dates). -/
def isLeapYear (y : ℕ) : Bool := (y % 4 == 0 && y % 100 != 0) || y % 400 == 0

def daysInMonth (y m : ℕ) : ℕ :=
  match m with
  | 2 => if isLeapYear y then 29 else 28
  | 4 => 30 | 6 => 30 | 9 => 30 | 11 => 30
  | _ => 31

/-- The dates representable in the 10-character `YYYY-MM-DD` form. -/
def ValidCivilDate (dt : CivilDate) : Prop :=
  dt.year ≤ 9999 ∧ 1 ≤ dt.month ∧ dt.month ≤ 12 ∧ 1 ≤ dt.day ∧ dt.day ≤ daysInMonth dt.year dt.month

instance (dt : CivilDate) : Decidable (ValidCivilDate dt) := by
  unfold ValidCivilDate; infer_instance

/-- `YYYY-MM-DD` rendering, as produced by `toISOString().split('T')[0]`. -/
def fmtISODate (dt : CivilDate) : String :=
  ⟨[digitChar (dt.year / 1000), digitChar (dt.year / 100 % 10),
    digitChar (dt.year / 10 % 10), digitChar (dt.year % 10), '-',
    digitChar (dt.month / 10), digitChar (dt.month % 10), '-',
    digitChar (dt.day / 10), digitChar (dt.day % 10)]⟩

/-- Range validation performed by the ECMAScript date-only parse
(out-of-range components yield an Invalid Date). -/
def mkISO (y m d : ℕ) : Option CivilDate :=
  if 1 ≤ m && m ≤ 12 && 1 ≤ d && d ≤ daysInMonth y m then some ⟨y, m, d⟩ else none

/-- Strict date-only ISO parse: the model of `new Date(s)` followed by the
`isNaN(date.getTime())` validity check. -/
def parseISODate (s : String) : Option CivilDate :=
  match s.data with
  | [y1, y2, y3, y4, h1, m1, m2, h2, d1, d2] =>
    if h1 = '-' && h2 = '-' && isDigitChar y1 && isDigitChar y2 && isDigitChar y3
        && isDigitChar y4 && isDigitChar m1 && isDigitChar m2 && isDigitChar d1
        && isDigitChar d2 then
      mkISO (((digitVal y1 * 10 + digitVal y2) * 10 + digitVal y3) * 10 + digitVal y4)
        (digitVal m1 * 10 + digitVal m2)
        (digitVal d1 * 10 + digitVal d2)
    else none
  | _ => none

lemma daysInMonth_le (y m : ℕ) : daysInMonth y m ≤ 31 := by
  unfold daysInMonth
  split
  · split <;> decide
  all_goals decide

lemma isDigitChar_digitChar (n : ℕ) : isDigitChar (digitChar n) = true := by
  unfold digitChar
  split <;> decide

lemma mkISO_eq_some {y m d : ℕ} {dt : CivilDate} (h : mkISO y m d = some dt) :
    dt = ⟨y, m, d⟩ ∧ 1 ≤ m ∧ m ≤ 12 ∧ 1 ≤ d ∧ d ≤ daysInMonth y m := by
  unfold mkISO at h
  split at h
  · rename_i hc
    simp only [Bool.and_eq_true, decide_eq_true_eq] at hc
    injection h with h
    exact ⟨h.symm, hc.1.1.1, hc.1.1.2, hc.1.2, hc.2⟩
  · exact absurd h (by simp)

lemma parseISODate_fmtISODate (dt : CivilDate) (h : ValidCivilDate dt) :
    parseISODate (fmtISODate dt) = some dt := by
  obtain ⟨hy, hm1, hm2, hd1, hd2⟩ := h
  have hd31 : dt.day ≤ 31 := le_trans hd2 (daysInMonth_le dt.year dt.month)
  unfold parseISODate fmtISODate
  simp only [isDigitChar_digitChar]
  rw [digitVal_digitChar (dt.year / 1000) (by omega),
      digitVal_digitChar (dt.year / 100 % 10) (by omega),
      digitVal_digitChar (dt.year / 10 % 10) (by omega),
      digitVal_digitChar (dt.year % 10) (by omega),
      digitVal_digitChar (dt.month / 10) (by omega),
      digitVal_digitChar (dt.month % 10) (by omega),
      digitVal_digitChar (dt.day / 10) (by omega),
      digitVal_digitChar (dt.day % 10) (by omega)]
  have hyv : ((dt.year / 1000 * 10 + dt.year / 100 % 10) * 10 + dt.year / 10 % 10) * 10 + dt.year % 10 = dt.year := by omega
  have hmv : dt.month / 10 * 10 + dt.month % 10 = dt.month := by omega
  have hdv : dt.day / 10 * 10 + dt.day % 10 = dt.day := by omega
  rw [hyv, hmv, hdv]
  unfold mkISO
  have hcond : (decide (1 ≤ dt.month) && decide (dt.month ≤ 12) && decide (1 ≤ dt.day)
      && decide (dt.day ≤ daysInMonth dt.year dt.month)) = true := by
    simp [hm1, hm2, hd1, hd2]
  simp [hcond]

lemma parseISODate_valid {s : String} {dt : CivilDate}
    (h : parseISODate s = some dt) : ValidCivilDate dt := by
  unfold parseISODate at h
  split at h
  · rename_i y1 y2 y3 y4 h1 m1 m2 h2 d1 d2 heq
    split at h
    · rename_i hcond
      simp only [Bool.and_eq_true] at hcond
      obtain ⟨hdt, hm1, hm2, hd1, hd2⟩ := mkISO_eq_some h
      subst hdt
      refine ⟨?_, hm1, hm2, hd1, hd2⟩
      have b1 : digitVal y1 ≤ 9 := by
        have := hcond.1.1.1.1.1.1.1.2
        unfold isDigitChar at this
        simp only [Bool.and_eq_true, decide_eq_true_eq] at this
        unfold digitVal
        omega
      have b2 : digitVal y2 ≤ 9 := by
        have := hcond.1.1.1.1.1.1.2
        unfold isDigitChar at this
        simp only [Bool.and_eq_true, decide_eq_true_eq] at this
        unfold digitVal
        omega
      have b3 : digitVal y3 ≤ 9 := by
        have := hcond.1.1.1.1.1.2
        unfold isDigitChar at this
        simp only [Bool.and_eq_true, decide_eq_true_eq] at this
        unfold digitVal
        omega
      have b4 : digitVal y4 ≤ 9 := by
        have := hcond.1.1.1.1.2
        unfold isDigitChar at this
        simp only [Bool.and_eq_true, decide_eq_true_eq] at this
        unfold digitVal
        omega
      simp only
      omega
    · exact absurd h (by simp)
  · exact absurd h (by simp)

lemma fmtISODate_nonWS (dt : CivilDate) : ∀ c ∈ (fmtISODate dt).data, isWS c = false := by
  unfold fmtISODate
  intro c hc
  simp only [List.mem_cons, List.not_mem_nil, or_false] at hc
  rcases hc with h | h | h | h | h | h | h | h | h | h <;> subst h <;>
    first
      | exact digitChar_not_isWS _
      | decide

lemma fmtISODate_ne_empty (dt : CivilDate) : fmtISODate dt ≠ "" := by
  unfold fmtISODate
  intro h
  have := congrArg String.data h
  simp at this

lemma jsTrim_fmtISODate (dt : CivilDate) : jsTrim (fmtISODate dt) = fmtISODate dt :=
  jsTrim_eq_self_of_nonWS _ (fmtISODate_nonWS dt)

/-! ## The parsed-JSON candidate model

The shape consumed by `sanitizeExtractedData` (the `JSON.parse` result of a
provider response) and produced by it.  String-typed fields are
`Option String` (`none` = absent); numeric fields are the `parseFloat`
result `Option ℚ` (`none` = `NaN`). -/

structure JLineItem where
  description : Option String
  unitPrice : Option ℚ
  quantity : Option ℚ
  total : Option ℚ
  deriving DecidableEq

/-- An entry of the parsed `lineItems` array: a proper object, or a value
(`null`, number, string, …) rejected by the
`item && typeof item === 'object'` pre-filter. -/
inductive JItem where
  | obj (it : JLineItem)
  | nonobj
  deriving DecidableEq

structure JVendor where
  name : Option String
  address : Option String
  taxId : Option String
  deriving DecidableEq

structure JInvoice where
  number : Option String
  date : Option String
  currency : Option String
  subtotal : Option ℚ
  taxPercent : Option ℚ
  total : Option ℚ
  poNumber : Option String
  poDate : Option String
  lineItems : Option (List JItem)
  deriving DecidableEq

structure JCandidate where
  vendor : Option JVendor
  invoice : Option JInvoice
  deriving DecidableEq

/-- A sanitized line item (all fields guaranteed present). -/
structure SanLineItem where
  description : String
  unitPrice : ℚ
  quantity : ℚ
  total : ℚ
  deriving DecidableEq

/-- Re-embed a sanitized line item as a parsed-JSON value (used to state that
sanitization output can be sanitized again). -/
def SanLineItem.toJItem (it : SanLineItem) : JItem :=
  .obj ⟨some it.description, some it.unitPrice, some it.quantity, some it.total⟩

/-! ## JavaScript `||` fallbacks -/

/-- `v?.trim() || fb` with a string fallback: absent values and values that
trim to `""` select the fallback. -/
def jsStrOr (v : Option String) (fb : String) : String :=
  match v with
  | none => fb
  | some s => if jsTrim s = "" then fb else jsTrim s

/-- `v?.trim() || undefined`. -/
def jsStrOrUndef (v : Option String) : Option String :=
  match v with
  | none => none
  | some s => if jsTrim s = "" then none else some (jsTrim s)

/-- `parseFloat(v) || fb` with a numeric fallback: `NaN` and `0` select the
fallback. -/
def jsNumOr (v : Option ℚ) (fb : ℚ) : ℚ :=
  match v with
  | none => fb
  | some q => if q = 0 then fb else q

/-- `parseFloat(v) || undefined`. -/
def jsNumOrUndef (v : Option ℚ) : Option ℚ :=
  match v with
  | none => none
  | some q => if q = 0 then none else some q

/-- `x || fb` on an optional string already produced (no trim). -/
def jsOrDefault (v : Option String) (fb : String) : String :=
  match v with
  | none => fb
  | some s => if s = "" then fb else s

/-- `x || undefined` on an optional string already produced (no trim). -/
def jsOrUndef (v : Option String) : Option String :=
  match v with
  | none => none
  | some s => if s = "" then none else some s

/-! ## `groqService.ts`: `validateAndFormatDate`, `sanitizeLineItems`,
`sanitizeExtractedData` -/

/-- `validateAndFormatDate(dateStr)`: falsy input → `undefined`; otherwise
parse with `new Date` and re-render `YYYY-MM-DD`, `undefined` on an invalid
date. -/
def validateAndFormatDate (v : Option String) : Option String :=
  match v with
  | none => none
  | some s => if s = "" then none else (parseISODate s).map fmtISODate

/-- The placeholder substituted when no valid line item survives. -/
def placeholderLineItem : SanLineItem :=
  ⟨"Unable to extract line items", 0, 1, 0⟩

/-- Per-item sanitization map inside `sanitizeLineItems`. -/
def sanitizeItem (it : JLineItem) : SanLineItem :=
  { description := jsStrOr it.description "Unknown Item",
    unitPrice := jsNumOr it.unitPrice 0,
    quantity := jsNumOr it.quantity 1,
    total := jsNumOr it.total 0 }

/-- `sanitizeLineItems(items)` from `groqService.ts`: keep object entries,
sanitize each, drop items whose description is falsy or the literal
`"Unknown Item"`, and substitute a single placeholder if nothing survives. -/
def sanitizeLineItems (items : List JItem) : List SanLineItem :=
  let sanitizedItems :=
    (items.filterMap fun it =>
      match it with
      | .obj o => some (sanitizeItem o)
      | .nonobj => none).filter
      fun it => it.description != "" && it.description != "Unknown Item"
  if sanitizedItems = [] then [placeholderLineItem] else sanitizedItems

/-- The wall clock: `Date.now()` and the current UTC civil date, passed
explicitly to the time-dependent fallbacks. -/
structure Clock where
  nowMs : ℕ
  today : CivilDate
  deriving DecidableEq

/-- The generated invoice-number placeholder `INV-${Date.now()}`. -/
def invPlaceholder (clk : Clock) : String := "INV-" ++ natToString clk.nowMs

/-- `sanitizeExtractedData(data)` from `groqService.ts`. -/
def sanitizeExtractedData (clk : Clock) (data : JCandidate) : JCandidate :=
  { vendor := some
      { name := some (jsStrOr (data.vendor.bind JVendor.name) "Unknown Vendor"),
        address := jsStrOrUndef (data.vendor.bind JVendor.address),
        taxId := jsStrOrUndef (data.vendor.bind JVendor.taxId) },
    invoice := some
      { number := some (jsStrOr (data.invoice.bind JInvoice.number) (invPlaceholder clk)),
        date := some (jsOrDefault (validateAndFormatDate (data.invoice.bind JInvoice.date))
          (fmtISODate clk.today)),
        currency := some (jsStrOr (data.invoice.bind JInvoice.currency) "USD"),
        subtotal := jsNumOrUndef (data.invoice.bind JInvoice.subtotal),
        taxPercent := jsNumOrUndef (data.invoice.bind JInvoice.taxPercent),
        total := jsNumOrUndef (data.invoice.bind JInvoice.total),
        poNumber := jsStrOrUndef (data.invoice.bind JInvoice.poNumber),
        poDate := jsOrUndef (validateAndFormatDate (data.invoice.bind JInvoice.poDate)),
        lineItems := some
          (((sanitizeLineItems ((data.invoice.bind JInvoice.lineItems).getD [])).map
            SanLineItem.toJItem)) } }

/-! ## `aiServiceManager.ts`: validation gate, retry loops, orchestrator -/

/-- `AIServiceManager.validateExtractedData(data)`: the structural gate. -/
def validateExtractedData (d : JCandidate) : Bool :=
  match d.vendor, d.invoice with
  | some v, some inv =>
    (match v.name with | some s => jsTrim s != "" | none => false) &&
    (match inv.number with | some s => jsTrim s != "" | none => false) &&
    (match inv.date with | some s => jsTrim s != "" | none => false) &&
    inv.lineItems.isSome
  | _, _ => false

/-- A thrown provider error: optional HTTP-style `status` plus `message`. -/
structure JsError where
  status : Option ℕ
  message : String
  deriving DecidableEq

/-- One call of a provider service: a returned candidate or a thrown error. -/
inductive CallResult where
  | ok (data : JCandidate)
  | err (e : JsError)
  deriving DecidableEq

/-- Substring test (`String.prototype.includes`). -/
def hasSubstrAux (pat : List Char) : List Char → Bool
  | [] => pat.isEmpty
  | c :: rest => pat.isPrefixOf (c :: rest) || hasSubstrAux pat rest

def jsIncludes (s sub : String) : Bool := hasSubstrAux sub.data s.data

/-- The literal scanned for by `extractRetryDelay`'s regex
`/"retryDelay":"(\d+)s"/`. -/
def retryPat : List Char := ("\"retryDelay\":\"").data

/-- Decimal decoding of a digit run (`parseInt`). -/
def digitsToNat (ds : List Char) : ℕ := ds.foldl (fun a c => a * 10 + digitVal c) 0

/-- Attempt the regex match at one position of the message. -/
def matchRetryAt (l : List Char) : Option ℕ :=
  if retryPat.isPrefixOf l then
    let rest := l.drop retryPat.length
    let ds := rest.takeWhile isDigitChar
    if ds = [] then none
    else
      match rest.drop ds.length with
      | 's' :: '"' :: _ => some (digitsToNat ds)
      | _ => none
  else none

def scanRetryDelay : List Char → Option ℕ
  | [] => none
  | c :: rest =>
    match matchRetryAt (c :: rest) with
    | some n => some n
    | none => scanRetryDelay rest

/-- `AIServiceManager.extractRetryDelay(errorMessage)`: seconds advertised in
the error payload, converted to milliseconds. -/
def extractRetryDelay (msg : String) : Option ℕ :=
  (scanRetryDelay msg.data).map (· * 1000)

/-- `this.maxRetries`. -/
def maxRetries : ℕ := 3

/-- `this.retryDelay` (milliseconds). -/
def retryDelay : ℕ := 2000

/-- `extractRetryDelay(error.message) || this.retryDelay` (0 is falsy). -/
def geminiRetryAfter (msg : String) : ℕ :=
  match extractRetryDelay msg with
  | none => retryDelay
  | some n => if n = 0 then retryDelay else n

/-- The `{success, data, error?}` result of `tryGemini` / `tryGroq`. -/
structure TryOutcome where
  success : Bool
  data : Option JCandidate
  error : Option String
  deriving DecidableEq

/-- Observable effects of one retry loop: the attempt numbers at which the
provider was called, and the delays awaited between calls. -/
structure CallTrace where
  calls : List ℕ
  waits : List ℕ
  deriving DecidableEq

/-- The shared body of `tryGemini` and `tryGroq` (the two methods differ only
in the rate-limit test and in the wait they await before a retry).  `fuel`
is a structural bound kept equal to `maxRetries - attempt` by the entry
points; the fuel-0 rate-limit arm coincides with the max-retries arm and is
unreachable from the entry points. -/
def tryProviderGo (rateTest : JsError → Bool) (waitOf : JsError → ℕ)
    (oracle : ℕ → CallResult) : ℕ → ℕ → TryOutcome × CallTrace
  | fuel, attempt =>
    match oracle attempt with
    | .ok data =>
      if validateExtractedData data then
        (⟨true, some data, none⟩, ⟨[attempt], []⟩)
      else
        (⟨false, none, some "Invalid data structure"⟩, ⟨[attempt], []⟩)
    | .err e =>
      if rateTest e then
        if attempt < maxRetries then
          match fuel with
          | fuel' + 1 =>
            let r := tryProviderGo rateTest waitOf oracle fuel' (attempt + 1)
            (r.1, ⟨attempt :: r.2.calls, waitOf e :: r.2.waits⟩)
          | 0 => (⟨false, none, some "Rate limit exceeded, max retries reached"⟩, ⟨[attempt], []⟩)
        else (⟨false, none, some "Rate limit exceeded, max retries reached"⟩, ⟨[attempt], []⟩)
      else (⟨false, none, some e.message⟩, ⟨[attempt], []⟩)

/-- The Gemini rate-limit test: `error.status === 429`. -/
def geminiRateLimited (e : JsError) : Bool := e.status == some 429

/-- `AIServiceManager.tryGemini(text)` starting at attempt 1: retries a 429
error, waiting `extractRetryDelay(error.message) || this.retryDelay`. -/
def tryGemini (oracle : ℕ → CallResult) : TryOutcome × CallTrace :=
  tryProviderGo geminiRateLimited (fun e => geminiRetryAfter e.message) oracle (maxRetries - 1) 1

/-- The Groq rate-limit test:
`error.status === 429 || error.message.includes('rate limit')`. -/
def groqRateLimited (e : JsError) : Bool :=
  e.status == some 429 || jsIncludes e.message "rate limit"

/-- `AIServiceManager.tryGroq(text)` starting at attempt 1; the wait is
always `this.retryDelay` (the payload is never consulted on this path). -/
def tryGroq (oracle : ℕ → CallResult) : TryOutcome × CallTrace :=
  tryProviderGo groqRateLimited (fun _ => retryDelay) oracle (maxRetries - 1) 1

/-- `generateMockInvoiceData()` (clock-explicit). -/
def generateMockInvoiceData (clk : Clock) : JCandidate :=
  { vendor := some ⟨some "AI Extraction Failed - Mock Vendor",
      some "123 Fallback Street, Error City, EC 12345", some "MOCK123456789"⟩,
    invoice := some
      { number := some ("MOCK-" ++ natToString clk.nowMs),
        date := some (fmtISODate clk.today),
        currency := some "USD",
        subtotal := some 100,
        taxPercent := some 10,
        total := some 110,
        poNumber := some ("PO-MOCK-" ++ natToString clk.nowMs),
        poDate := some (fmtISODate clk.today),
        lineItems := some [JItem.obj
          ⟨some "AI Extraction Failed - Mock Line Item", some 100, some 1, some 100⟩] } }

/-- `result.success && result.data` — the guard under which `extractData`
returns a provider's result. -/
def TryOutcome.accepted (o : TryOutcome) : Option JCandidate :=
  match o.success, o.data with
  | true, some d => some d
  | _, _ => none

inductive Model where
  | gemini
  | groq
  deriving DecidableEq

def modelName : Model → String
  | .gemini => "gemini"
  | .groq => "groq"

/-- `AIServiceManager.extractData(text, preferredModel)`: preferred provider,
then the other as fallback, then deterministic mock data. -/
def extractData (gem groq : String → ℕ → CallResult) (text : String)
    (preferredModel : Model) (clk : Clock) : JCandidate :=
  match preferredModel with
  | .gemini =>
    match (tryGemini (gem text)).1.accepted with
    | some d => d
    | none =>
      match (tryGroq (groq text)).1.accepted with
      | some d => d
      | none => generateMockInvoiceData clk
  | .groq =>
    match (tryGroq (groq text)).1.accepted with
    | some d => d
    | none =>
      match (tryGemini (gem text)).1.accepted with
      | some d => d
      | none => generateMockInvoiceData clk

/-! ## `extractRoutes.ts`: the `POST /extract` handler after text extraction -/

/-- `extractedData.vendor.name.includes('Mock') ||
extractedData.vendor.name.includes('AI Extraction Failed')`. -/
def isMockData (d : JCandidate) : Bool :=
  match d.vendor with
  | some v =>
    match v.name with
    | some n => jsIncludes n "Mock" || jsIncludes n "AI Extraction Failed"
    | none => false
  | none => false

/-- What the handler sends back and persists. -/
structure ExtractOutcome where
  extractionModel : String
  recordModel : String
  recordStatus : String
  warning : Option String
  extractedData : JCandidate
  status : String
  deriving DecidableEq

/-- The `POST /extract` handler body after `extractTextFromPDF` succeeded with
non-empty `text` and `model` passed the allow-list: call `extractDataSafely`,
detect mock data, set `actualModelUsed`, persist, respond. -/
def postExtractCore (gem groq : String → ℕ → CallResult) (text : String)
    (model : Model) (clk : Clock) : ExtractOutcome :=
  let extractedData := extractData gem groq text model clk
  let isMock := isMockData extractedData
  let actualModelUsed := if isMock then "mock" else modelName model
  { extractionModel := actualModelUsed,
    recordModel := actualModelUsed,
    recordStatus := "completed",
    warning := if isMock then some "AI extraction failed, mock data used" else none,
    extractedData := extractedData,
    status := "completed" }

/-! ## `ExtractionForm.tsx`: `updateLineItem` -/

structure FormLineItem where
  description : String
  unitPrice : ℚ
  quantity : ℚ
  total : ℚ
  deriving DecidableEq

/-- The slice of the form's invoice state read or written by
`updateLineItem`: unrelated fields are spread through unchanged. -/
structure FormInvoice where
  number : String
  date : String
  taxPercent : ℚ
  subtotal : ℚ
  total : ℚ
  lineItems : List FormLineItem
  deriving DecidableEq

/-- The `(field, value)` argument pair of `updateLineItem`. -/
inductive LineItemUpdate where
  | description (v : String)
  | unitPrice (v : ℚ)
  | quantity (v : ℚ)
  deriving DecidableEq

/-- `{ ...item, [field]: value }`. -/
def applyLineItemUpdate (it : FormLineItem) : LineItemUpdate → FormLineItem
  | .description v => { it with description := v }
  | .unitPrice v => { it with unitPrice := v }
  | .quantity v => { it with quantity := v }

/-- `field === 'quantity' || field === 'unitPrice'`. -/
def recomputesTotal : LineItemUpdate → Bool
  | .description _ => false
  | .unitPrice _ => true
  | .quantity _ => true

/-- `updateLineItem(index, field, value)` from `ExtractionForm.tsx`: update
the indexed item, recompute its `total` for numeric fields, then recompute
`subtotal` and `total` of the invoice.  (Out-of-range indices are not used
by the component; the model leaves the state unchanged there.) -/
def updateLineItem (inv : FormInvoice) (index : ℕ) (u : LineItemUpdate) : FormInvoice :=
  match inv.lineItems[index]? with
  | none => inv
  | some it =>
    let it1 := applyLineItemUpdate it u
    let it2 := if recomputesTotal u then { it1 with total := it1.quantity * it1.unitPrice } else it1
    let updatedLineItems := inv.lineItems.set index it2
    let subtotal := updatedLineItems.foldl (fun sum item => sum + item.total) 0
    let total := subtotal + subtotal * (inv.taxPercent / 100)
    { inv with lineItems := updatedLineItems, subtotal := subtotal, total := total }

/-! ## `uploadRoutes.ts` (Vercel-Blob variant): `POST /upload`,
database-error branch -/

/-- Blob store plus invoice collection, as explicit state. -/
structure UploadState where
  blobs : List String
  records : List String
  deriving DecidableEq

structure UploadResponse where
  httpStatus : ℕ
  success : Bool
  deriving DecidableEq

/-- The `POST /upload` handler after multer accepted a PDF: upload the blob,
then create the invoice record; if the database insert throws, delete the
just-created blob (best-effort — a cleanup failure is only logged) and
respond 500.  `dbFails`/`delFails` model the two awaited calls' outcomes. -/
def postUpload (st : UploadState) (fileId : String) (dbFails delFails : Bool) :
    UploadState × UploadResponse :=
  let blobName := "pdfs/" ++ fileId ++ ".pdf"
  let st1 : UploadState := { st with blobs := blobName :: st.blobs }
  if dbFails then
    let st2 : UploadState :=
      if delFails then st1 else { st1 with blobs := st1.blobs.erase blobName }
    (st2, ⟨500, false⟩)
  else
    let st2 : UploadState := { st1 with records := fileId :: st1.records }
    (st2, ⟨200, true⟩)

/-! ## Helper lemmas about the retry loops and the orchestrator -/

lemma tryProviderGo_accepted_valid (rateTest : JsError → Bool) (waitOf : JsError → ℕ)
    (oracle : ℕ → CallResult) :
    ∀ fuel a d, (tryProviderGo rateTest waitOf oracle fuel a).1.accepted = some d →
      validateExtractedData d = true := by
  intro fuel
  induction fuel with
  | zero =>
    intro a d h
    rw [tryProviderGo] at h
    cases hc : oracle a with
    | ok data =>
      rw [hc] at h
      by_cases hv : validateExtractedData data
      · simp only [hv, if_true, TryOutcome.accepted] at h
        injection h with h
        subst h
        exact hv
      · simp [hv, TryOutcome.accepted] at h
    | err e =>
      rw [hc] at h
      by_cases hr : rateTest e
      · by_cases ha : a < maxRetries
        · simp [hr, ha, TryOutcome.accepted] at h
        · simp [hr, ha, TryOutcome.accepted] at h
      · simp [hr, TryOutcome.accepted] at h
  | succ fuel ih =>
    intro a d h
    rw [tryProviderGo] at h
    cases hc : oracle a with
    | ok data =>
      rw [hc] at h
      by_cases hv : validateExtractedData data
      · simp only [hv, if_true, TryOutcome.accepted] at h
        injection h with h
        subst h
        exact hv
      · simp [hv, TryOutcome.accepted] at h
    | err e =>
      rw [hc] at h
      by_cases hr : rateTest e
      · by_cases ha : a < maxRetries
        · simp only [hr, ha, if_true] at h
          exact ih (a + 1) d h
        · simp [hr, ha, TryOutcome.accepted] at h
      · simp [hr, TryOutcome.accepted] at h

/-- One provider call "fails" when it throws or returns structurally invalid
data (the two cases that make `tryGemini`/`tryGroq` report no success). -/
def ProviderCallFails : CallResult → Prop
  | .ok d => validateExtractedData d = false
  | .err _ => True

lemma tryProviderGo_fail (rateTest : JsError → Bool) (waitOf : JsError → ℕ)
    (oracle : ℕ → CallResult) (hfail : ∀ i, ProviderCallFails (oracle i)) :
    ∀ fuel a, (tryProviderGo rateTest waitOf oracle fuel a).1.accepted = none := by
  intro fuel
  induction fuel with
  | zero =>
    intro a
    rw [tryProviderGo]
    cases hc : oracle a with
    | ok data =>
      have := hfail a
      rw [hc] at this
      simp only [ProviderCallFails] at this
      simp [this, TryOutcome.accepted]
    | err e =>
      by_cases hr : rateTest e
      · by_cases ha : a < maxRetries
        · simp [hr, ha, TryOutcome.accepted]
        · simp [hr, ha, TryOutcome.accepted]
      · simp [hr, TryOutcome.accepted]
  | succ fuel ih =>
    intro a
    rw [tryProviderGo]
    cases hc : oracle a with
    | ok data =>
      have := hfail a
      rw [hc] at this
      simp only [ProviderCallFails] at this
      simp [this, TryOutcome.accepted]
    | err e =>
      by_cases hr : rateTest e
      · by_cases ha : a < maxRetries
        · simp only [hr, ha, if_true]
          exact ih (a + 1)
        · simp [hr, ha, TryOutcome.accepted]
      · simp [hr, TryOutcome.accepted]

lemma string_ne_empty_of_data_ne_nil {s : String} (h : s.data ≠ []) : s ≠ "" := by
  intro he
  subst he
  exact h rfl

lemma jsTrim_ne_empty_of_nonWS_ne_nil (s : String)
    (hns : ∀ c ∈ s.data, isWS c = false) (hne : s.data ≠ []) : jsTrim s ≠ "" := by
  rw [jsTrim_eq_self_of_nonWS s hns]
  exact string_ne_empty_of_data_ne_nil hne

lemma mock_number_nonWS (n : ℕ) :
    ∀ c ∈ ("MOCK-" ++ natToString n).data, isWS c = false := by
  intro c hc
  rw [String.data_append] at hc
  rcases List.mem_append.mp hc with h | h
  · have : c ∈ ("MOCK-" : String).data := h
    fin_cases this <;> decide
  · exact natToDigitsAux_not_isWS n n c h

lemma validate_mock (clk : Clock) :
    validateExtractedData (generateMockInvoiceData clk) = true := by
  unfold validateExtractedData generateMockInvoiceData
  simp only [Bool.and_eq_true, bne_iff_ne, ne_eq, Option.isSome_some]
  refine ⟨⟨⟨?_, ?_⟩, ?_⟩, trivial⟩
  · decide
  · exact jsTrim_ne_empty_of_nonWS_ne_nil _ (mock_number_nonWS clk.nowMs)
      (by rw [String.data_append]; simp)
  · rw [jsTrim_fmtISODate]
    exact fmtISODate_ne_empty clk.today

/-! ## Claim C2 -/

/-- C2: for every input text (including the empty string), either provider as
the preferred model, any provider behaviour and any clock, the orchestrator
`extractData` is total (the model of "never raises") and its result passes
the structural validation gate `validateExtractedData` — vendor.name,
invoice.number and invoice.date non-empty after trim, and invoice.lineItems
present as a sequence. -/
theorem extractData_always_valid (gem groq : String → ℕ → CallResult)
    (text : String) (preferred : Model) (clk : Clock) :
    validateExtractedData (extractData gem groq text preferred clk) = true := by
  cases preferred with
  | gemini =>
    unfold extractData
    cases hg : (tryGemini (gem text)).1.accepted with
    | some d =>
      exact tryProviderGo_accepted_valid _ _ _ _ _ _ hg
    | none =>
      cases hq : (tryGroq (groq text)).1.accepted with
      | some d =>
        exact tryProviderGo_accepted_valid _ _ _ _ _ _ hq
      | none =>
        exact validate_mock clk
  | groq =>
    unfold extractData
    cases hq : (tryGroq (groq text)).1.accepted with
    | some d =>
      exact tryProviderGo_accepted_valid _ _ _ _ _ _ hq
    | none =>
      cases hg : (tryGemini (gem text)).1.accepted with
      | some d =>
        exact tryProviderGo_accepted_valid _ _ _ _ _ _ hg
      | none =>
        exact validate_mock clk

/-! ## Claim C3 -/

lemma extractData_of_all_fail (gem groq : String → ℕ → CallResult) (text : String)
    (preferred : Model) (clk : Clock)
    (hg : ∀ i, ProviderCallFails (gem text i)) (hq : ∀ i, ProviderCallFails (groq text i)) :
    extractData gem groq text preferred clk = generateMockInvoiceData clk := by
  have h1 : (tryGemini (gem text)).1.accepted = none :=
    tryProviderGo_fail _ _ _ hg _ _
  have h2 : (tryGroq (groq text)).1.accepted = none :=
    tryProviderGo_fail _ _ _ hq _ _
  cases preferred with
  | gemini =>
    unfold extractData
    rw [h1, h2]
  | groq =>
    unfold extractData
    rw [h1, h2]

/-- C3: whenever every call of both providers fails (throws, or returns data
rejected by the gate), the orchestrator's candidate carries the mock marker —
its `vendor.name` contains `"Mock"` or `"AI Extraction Failed"` — and the
`POST /extract` handler then reports `extractionModel = "mock"` (response
and persisted record) with a non-null `warning`. -/
theorem bothProvidersFail_mock_marker (gem groq : String → ℕ → CallResult)
    (text : String) (preferred : Model) (clk : Clock)
    (hg : ∀ i, ProviderCallFails (gem text i)) (hq : ∀ i, ProviderCallFails (groq text i)) :
    (∃ v n, (extractData gem groq text preferred clk).vendor = some v ∧ v.name = some n ∧
      (jsIncludes n "Mock" = true ∨ jsIncludes n "AI Extraction Failed" = true)) ∧
    (postExtractCore gem groq text preferred clk).extractionModel = "mock" ∧
    (postExtractCore gem groq text preferred clk).recordModel = "mock" ∧
    (postExtractCore gem groq text preferred clk).warning ≠ none := by
  have hext := extractData_of_all_fail gem groq text preferred clk hg hq
  have hmark : jsIncludes "AI Extraction Failed - Mock Vendor" "Mock" = true := by decide
  have hmock : isMockData (generateMockInvoiceData clk) = true := by
    unfold isMockData generateMockInvoiceData
    simp [hmark]
  refine ⟨⟨⟨some "AI Extraction Failed - Mock Vendor",
      some "123 Fallback Street, Error City, EC 12345", some "MOCK123456789"⟩,
      "AI Extraction Failed - Mock Vendor", ?_, rfl, Or.inl hmark⟩, ?_, ?_, ?_⟩
  · rw [hext]; rfl
  · simp [postExtractCore, hext, hmock]
  · simp [postExtractCore, hext, hmock]
  · simp [postExtractCore, hext, hmock]

/-- A concrete clock for ground evaluations. -/
def clk0 : Clock := ⟨1234, ⟨2024, 5, 1⟩⟩

/-- A provider behaviour whose every call throws a non-rate-limit error. -/
def alwaysErrOracle : String → ℕ → CallResult := fun _ _ => .err ⟨none, "boom"⟩

/-- Witness for C3: with both providers always throwing, the handler reports
the mock model and a warning. -/
theorem bothProvidersFail_mock_marker_witness :
    (∃ v n, (extractData alwaysErrOracle alwaysErrOracle "" .gemini clk0).vendor = some v ∧
      v.name = some n ∧
      (jsIncludes n "Mock" = true ∨ jsIncludes n "AI Extraction Failed" = true)) ∧
    (postExtractCore alwaysErrOracle alwaysErrOracle "" .gemini clk0).extractionModel = "mock" ∧
    (postExtractCore alwaysErrOracle alwaysErrOracle "" .gemini clk0).recordModel = "mock" ∧
    (postExtractCore alwaysErrOracle alwaysErrOracle "" .gemini clk0).warning ≠ none :=
  bothProvidersFail_mock_marker alwaysErrOracle alwaysErrOracle "" .gemini clk0
    (fun _ => trivial) (fun _ => trivial)

/-! ## Claim C1 -/

/-- A provider behaviour whose every call throws a plain (non-429) API
error — the preferred provider failing. -/
def gemFailOracle : String → ℕ → CallResult := fun _ _ => .err ⟨none, "Gemini API error"⟩

/-- A structurally valid candidate with no mock marker, as a successful
secondary provider would return it. -/
def acmeCandidate : JCandidate :=
  { vendor := some ⟨some "Acme Corporation", none, none⟩,
    invoice := some
      { number := some "INV-100", date := some "2024-05-01", currency := some "USD",
        subtotal := some 100, taxPercent := none, total := some 100,
        poNumber := none, poDate := none,
        lineItems := some [JItem.obj ⟨some "Widget", some 100, some 1, some 100⟩] } }

/-- A provider behaviour whose every call succeeds with `acmeCandidate`. -/
def groqOkOracle : String → ℕ → CallResult := fun _ _ => .ok acmeCandidate

/-- C1 (code bug, evaluated at the failing input): with `gemini` preferred,
every Gemini call failing and Groq succeeding with `acmeCandidate`, the
orchestrator returns Groq's candidate, yet the handler's response and the
persisted record report `extractionModel = "gemini"` — the requested model,
not the secondary provider's name `"groq"` required by the claim. -/
theorem extractionModel_reports_preferred_not_actual :
    extractData gemFailOracle groqOkOracle "invoice text" .gemini clk0 = acmeCandidate ∧
    validateExtractedData acmeCandidate = true ∧
    (postExtractCore gemFailOracle groqOkOracle "invoice text" .gemini clk0).extractionModel
      = "gemini" ∧
    (postExtractCore gemFailOracle groqOkOracle "invoice text" .gemini clk0).recordModel
      = "gemini" ∧
    modelName .groq = "groq" ∧ ("gemini" : String) ≠ "groq" := by
  refine ⟨by decide, by decide, by decide, by decide, rfl, by decide⟩

/-! ## Claim C7 -/

lemma foldl_total_eq_sum_map (l : List FormLineItem) :
    l.foldl (fun sum item => sum + item.total) 0 = (l.map FormLineItem.total).sum := by
  rw [List.sum_eq_foldl, List.foldl_map]

/-- C7: after `updateLineItem(index, field, value)` on an in-range index:
editing `unitPrice` or `quantity` makes the edited item's `total` equal
`unitPrice × quantity`; editing `description` leaves its `total` unchanged;
and in all cases the new `subtotal` is the sum of all line items' `total`
and the new `total` is `subtotal × (1 + taxPercent/100)`. -/
theorem updateLineItem_recompute (inv : FormInvoice) (index : ℕ) (u : LineItemUpdate)
    (h : index < inv.lineItems.length) :
    ∃ it', (updateLineItem inv index u).lineItems[index]? = some it' ∧
      ((∀ v, u = .unitPrice v → it'.total = it'.unitPrice * it'.quantity) ∧
       (∀ v, u = .quantity v → it'.total = it'.unitPrice * it'.quantity) ∧
       (∀ v it0, u = .description v → inv.lineItems[index]? = some it0 →
          it'.total = it0.total)) ∧
      (updateLineItem inv index u).subtotal
        = ((updateLineItem inv index u).lineItems.map FormLineItem.total).sum ∧
      (updateLineItem inv index u).total
        = (updateLineItem inv index u).subtotal * (1 + inv.taxPercent / 100) := by
  have hget : inv.lineItems[index]? = some (inv.lineItems.get ⟨index, h⟩) := by
    rw [List.getElem?_eq_getElem h]
    rfl
  set it := inv.lineItems.get ⟨index, h⟩ with hit
  set it1 := applyLineItemUpdate it u with hit1
  set it2 := (if recomputesTotal u then { it1 with total := it1.quantity * it1.unitPrice } else it1) with hit2
  have hupd : updateLineItem inv index u =
      { inv with
        lineItems := inv.lineItems.set index it2,
        subtotal := (inv.lineItems.set index it2).foldl (fun sum item => sum + item.total) 0,
        total := (inv.lineItems.set index it2).foldl (fun sum item => sum + item.total) 0
          + (inv.lineItems.set index it2).foldl (fun sum item => sum + item.total) 0
            * (inv.taxPercent / 100) } := by
    unfold updateLineItem
    rw [hget]
  refine ⟨it2, ?_, ⟨?_, ?_, ?_⟩, ?_, ?_⟩
  · rw [hupd]
    simp only
    rw [List.getElem?_set_self]
    exact h
  · intro v hv
    subst hv
    simp [hit2, hit1, recomputesTotal, applyLineItemUpdate]
    ring
  · intro v hv
    subst hv
    simp [hit2, hit1, recomputesTotal, applyLineItemUpdate]
    ring
  · intro v it0 hv hit0
    subst hv
    rw [hget] at hit0
    injection hit0 with hit0
    subst hit0
    simp [hit2, hit1, recomputesTotal, applyLineItemUpdate]
  · rw [hupd]
    simp only
    exact foldl_total_eq_sum_map _
  · rw [hupd]
    simp only
    ring

/-- A concrete form state for the C7 witness. -/
def formInvoice0 : FormInvoice :=
  ⟨"INV-1", "2024-05-01", 10, 10, 11, [⟨"Widget", 5, 2, 10⟩]⟩

/-- Witness for C7 at a concrete in-range update. -/
theorem updateLineItem_recompute_witness :
    0 < formInvoice0.lineItems.length ∧
    (∃ it', (updateLineItem formInvoice0 0 (.unitPrice 7)).lineItems[0]? = some it' ∧
      ((∀ v, LineItemUpdate.unitPrice 7 = .unitPrice v → it'.total = it'.unitPrice * it'.quantity) ∧
       (∀ v, LineItemUpdate.unitPrice 7 = .quantity v → it'.total = it'.unitPrice * it'.quantity) ∧
       (∀ v it0, LineItemUpdate.unitPrice 7 = .description v →
          formInvoice0.lineItems[0]? = some it0 → it'.total = it0.total)) ∧
      (updateLineItem formInvoice0 0 (.unitPrice 7)).subtotal
        = ((updateLineItem formInvoice0 0 (.unitPrice 7)).lineItems.map FormLineItem.total).sum ∧
      (updateLineItem formInvoice0 0 (.unitPrice 7)).total
        = (updateLineItem formInvoice0 0 (.unitPrice 7)).subtotal * (1 + formInvoice0.taxPercent / 100)) :=
  ⟨by decide, updateLineItem_recompute formInvoice0 0 (.unitPrice 7) (by decide)⟩

/-! ## Claim C9 -/

/-- C9: when the database insert fails after the blob was uploaded
(`dbFails = true`), the `POST /upload` handler responds 500 with
`success: false`, no invoice record exists for the fresh `fileId`
afterwards, and — when the best-effort cleanup succeeds — the just-created
blob is gone from the store as well. -/
theorem upload_dbFailure_cleanup (st : UploadState) (fileId : String) (delFails : Bool)
    (hrec : fileId ∉ st.records) (hblob : ("pdfs/" ++ fileId ++ ".pdf") ∉ st.blobs) :
    (postUpload st fileId true delFails).2.httpStatus = 500 ∧
    (postUpload st fileId true delFails).2.success = false ∧
    fileId ∉ (postUpload st fileId true delFails).1.records ∧
    (delFails = false →
      ("pdfs/" ++ fileId ++ ".pdf") ∉ (postUpload st fileId true delFails).1.blobs) := by
  unfold postUpload
  cases delFails with
  | false =>
    refine ⟨rfl, rfl, ?_, ?_⟩
    · simpa using hrec
    · intro _
      simp only [if_true, if_false, Bool.false_eq_true]
      rw [List.erase_cons_head]
      simpa using hblob
  | true =>
    exact ⟨rfl, rfl, by simpa using hrec, by intro hcon; exact absurd hcon (by simp)⟩

/-- A concrete store state for the C9 witness. -/
def uploadState0 : UploadState := ⟨["pdfs/other.pdf"], ["other"]⟩

/-- Witness for C9 at a fresh `fileId` with the cleanup succeeding. -/
theorem upload_dbFailure_cleanup_witness :
    (postUpload uploadState0 "f1" true false).2.httpStatus = 500 ∧
    (postUpload uploadState0 "f1" true false).2.success = false ∧
    "f1" ∉ (postUpload uploadState0 "f1" true false).1.records ∧
    (false = false →
      ("pdfs/" ++ "f1" ++ ".pdf") ∉ (postUpload uploadState0 "f1" true false).1.blobs) :=
  upload_dbFailure_cleanup uploadState0 "f1" false (by decide) (by decide)

/-! ## Claim C10 -/

/-- C10: under `||`-based fallback selection, a parsed value of exactly `0`
behaves like a missing/NaN value: a zero `invoice.subtotal`, `taxPercent`
or `total` is omitted (set `undefined`) by `sanitizeExtractedData` instead
of kept as `0`, and a line item whose `quantity` parses to `0` is sanitized
to `quantity = 1`. -/
theorem sanitize_zero_indistinguishable (clk : Clock) (c : JCandidate) :
    (c.invoice.bind JInvoice.subtotal = some 0 →
      (sanitizeExtractedData clk c).invoice.bind JInvoice.subtotal = none) ∧
    (c.invoice.bind JInvoice.taxPercent = some 0 →
      (sanitizeExtractedData clk c).invoice.bind JInvoice.taxPercent = none) ∧
    (c.invoice.bind JInvoice.total = some 0 →
      (sanitizeExtractedData clk c).invoice.bind JInvoice.total = none) ∧
    (∀ it : JLineItem, it.quantity = some 0 → (sanitizeItem it).quantity = 1) := by
  refine ⟨?_, ?_, ?_, ?_⟩
  · intro h
    simp [sanitizeExtractedData, h, jsNumOrUndef]
  · intro h
    simp [sanitizeExtractedData, h, jsNumOrUndef]
  · intro h
    simp [sanitizeExtractedData, h, jsNumOrUndef]
  · intro it h
    simp [sanitizeItem, h, jsNumOr]

/-- A candidate whose numeric fields all parse to exactly `0`. -/
def zeroCandidate : JCandidate :=
  { vendor := some ⟨some "Zero Vendor", none, none⟩,
    invoice := some
      { number := some "INV-0", date := none, currency := none,
        subtotal := some 0, taxPercent := some 0, total := some 0,
        poNumber := none, poDate := none,
        lineItems := some [JItem.obj ⟨some "Item", some 1, some 0, some 0⟩] } }

/-- Witness for C10 at a concrete all-zero candidate. -/
theorem sanitize_zero_indistinguishable_witness :
    (sanitizeExtractedData clk0 zeroCandidate).invoice.bind JInvoice.subtotal = none ∧
    (sanitizeExtractedData clk0 zeroCandidate).invoice.bind JInvoice.taxPercent = none ∧
    (sanitizeExtractedData clk0 zeroCandidate).invoice.bind JInvoice.total = none ∧
    (sanitizeItem ⟨some "Item", some 1, some 0, some 0⟩).quantity = 1 :=
  ⟨(sanitize_zero_indistinguishable clk0 zeroCandidate).1 rfl,
   (sanitize_zero_indistinguishable clk0 zeroCandidate).2.1 rfl,
   (sanitize_zero_indistinguishable clk0 zeroCandidate).2.2.1 rfl,
   (sanitize_zero_indistinguishable clk0 zeroCandidate).2.2.2 _ rfl⟩

/-! ## Claim C4 -/

/-- A parsed candidate carrying negative numeric values. -/
def negCandidate : JCandidate :=
  { vendor := some ⟨some "Neg Vendor", none, none⟩,
    invoice := some
      { number := some "INV-9", date := none, currency := none,
        subtotal := some (-5), taxPercent := none, total := none,
        poNumber := none, poDate := none,
        lineItems := some [JItem.obj ⟨some "Widget", some (-3), some 2, some (-6)⟩] } }

/-- Counterexample to C4 as stated: a negative parsed `invoice.subtotal`
(and a negative line-item `unitPrice`) survives sanitization unchanged — it
is neither coerced to 0 nor dropped, so not every sanitized numeric field is
non-negative. -/
theorem sanitize_keeps_negative_counterexample :
    (sanitizeExtractedData clk0 negCandidate).invoice.bind JInvoice.subtotal = some (-5) ∧
    ((-5 : ℚ) < 0) ∧
    (sanitizeItem ⟨some "Widget", some (-3), some 2, some (-6)⟩).unitPrice = -3 ∧
    ((-3 : ℚ) < 0) := by
  refine ⟨by decide, by decide, by decide, by decide⟩

/-- C4 (amended): every numeric field of a sanitized candidate is a finite
rational; `NaN` (and, at invoice level, `0`) never survives — those select
the fallback (omission at invoice level; `0`/`1`/`0` inside line items) —
but any other parsed value, including a negative one, is preserved
unchanged rather than coerced to 0 or dropped. -/
theorem sanitize_numeric_fields_amended (clk : Clock) (c : JCandidate) :
    (∀ q, (sanitizeExtractedData clk c).invoice.bind JInvoice.subtotal = some q →
      q ≠ 0 ∧ c.invoice.bind JInvoice.subtotal = some q) ∧
    (∀ q, (sanitizeExtractedData clk c).invoice.bind JInvoice.taxPercent = some q →
      q ≠ 0 ∧ c.invoice.bind JInvoice.taxPercent = some q) ∧
    (∀ q, (sanitizeExtractedData clk c).invoice.bind JInvoice.total = some q →
      q ≠ 0 ∧ c.invoice.bind JInvoice.total = some q) ∧
    (∀ it : JLineItem,
      ((sanitizeItem it).unitPrice = 0 ∨ it.unitPrice = some (sanitizeItem it).unitPrice) ∧
      ((sanitizeItem it).quantity ≠ 0 ∧
        ((sanitizeItem it).quantity = 1 ∨ it.quantity = some (sanitizeItem it).quantity)) ∧
      ((sanitizeItem it).total = 0 ∨ it.total = some (sanitizeItem it).total)) := by
  have hnum : ∀ v : Option ℚ, ∀ q, jsNumOrUndef v = some q → q ≠ 0 ∧ v = some q := by
    intro v q h
    cases v with
    | none => simp [jsNumOrUndef] at h
    | some r =>
      by_cases hr : r = 0
      · simp [jsNumOrUndef, hr] at h
      · simp only [jsNumOrUndef, if_neg hr] at h
        injection h with h
        subst h
        exact ⟨hr, rfl⟩
  refine ⟨?_, ?_, ?_, ?_⟩
  · intro q h
    exact hnum _ q (by simpa [sanitizeExtractedData] using h)
  · intro q h
    exact hnum _ q (by simpa [sanitizeExtractedData] using h)
  · intro q h
    exact hnum _ q (by simpa [sanitizeExtractedData] using h)
  · intro it
    refine ⟨?_, ⟨?_, ?_⟩, ?_⟩
    · cases hu : it.unitPrice with
      | none => left; simp [sanitizeItem, hu, jsNumOr]
      | some r =>
        by_cases hr : r = 0
        · left; simp [sanitizeItem, hu, hr, jsNumOr]
        · right; simp [sanitizeItem, hu, hr, jsNumOr]
    · cases hq : it.quantity with
      | none => simp [sanitizeItem, hq, jsNumOr]
      | some r =>
        by_cases hr : r = 0
        · simp [sanitizeItem, hq, hr, jsNumOr]
        · simp [sanitizeItem, hq, hr, jsNumOr]
    · cases hq : it.quantity with
      | none => left; simp [sanitizeItem, hq, jsNumOr]
      | some r =>
        by_cases hr : r = 0
        · left; simp [sanitizeItem, hq, hr, jsNumOr]
        · right; simp [sanitizeItem, hq, hr, jsNumOr]
    · cases ht : it.total with
      | none => left; simp [sanitizeItem, ht, jsNumOr]
      | some r =>
        by_cases hr : r = 0
        · left; simp [sanitizeItem, ht, hr, jsNumOr]
        · right; simp [sanitizeItem, ht, hr, jsNumOr]

/-- Witness for the amended C4 at the negative-valued candidate. -/
theorem sanitize_numeric_fields_amended_witness :
    ((-5 : ℚ) ≠ 0 ∧ negCandidate.invoice.bind JInvoice.subtotal = some (-5)) ∧
    ((sanitizeItem ⟨some "Widget", some (-3), some 2, some (-6)⟩).unitPrice = 0 ∨
      (JLineItem.mk (some "Widget") (some (-3)) (some 2) (some (-6))).unitPrice
        = some (sanitizeItem ⟨some "Widget", some (-3), some 2, some (-6)⟩).unitPrice) :=
  ⟨(sanitize_numeric_fields_amended clk0 negCandidate).1 (-5) (by decide),
   ((sanitize_numeric_fields_amended clk0 negCandidate).2.2.2
     ⟨some "Widget", some (-3), some 2, some (-6)⟩).1⟩

/-! ## Claim C5 -/

/-- The per-item map described by the claim's words: sanitize every parsed
candidate item to `{description: trimmed-or-"Unknown Item", unitPrice:
float-or-0, quantity: float-or-1, total: float-or-0}` (a non-object entry
has no fields, so all its fields fall back). -/
def specSanitizeItem (it : JItem) : SanLineItem :=
  match it with
  | .obj o => sanitizeItem o
  | .nonobj => sanitizeItem ⟨none, none, none, none⟩

/-- The pipeline described by the claim's words: map every item, remove
every item whose description sanitizes to exactly `"Unknown Item"`, and
substitute exactly one placeholder if the result is empty. -/
def specLineItemPipeline (items : List JItem) : List SanLineItem :=
  let kept := (items.map specSanitizeItem).filter fun it => it.description != "Unknown Item"
  if kept = [] then [placeholderLineItem] else kept

lemma sanitizeItem_description_ne_empty (o : JLineItem) :
    (sanitizeItem o).description ≠ "" := by
  unfold sanitizeItem jsStrOr
  cases ho : o.description with
  | none => simp
  | some s =>
    simp only
    by_cases hs : jsTrim s = ""
    · simp [hs]
    · simp [hs]

lemma sanitizeLineItems_filter_eq (items : List JItem) :
    ((items.filterMap fun it =>
        match it with
        | .obj o => some (sanitizeItem o)
        | .nonobj => none).filter
        fun it => it.description != "" && it.description != "Unknown Item")
      = (items.map specSanitizeItem).filter fun it => it.description != "Unknown Item" := by
  induction items with
  | nil => rfl
  | cons hd tl ih =>
    cases hd with
    | obj o =>
      rw [List.filterMap_cons, List.map_cons]
      simp only
      rw [List.filter_cons, List.filter_cons]
      have hne : ((sanitizeItem o).description != "") = true := by
        simp [sanitizeItem_description_ne_empty o]
      by_cases hui : (sanitizeItem o).description = "Unknown Item"
      · simp only [specSanitizeItem, hne, hui]
        simpa using ih
      · have : ((sanitizeItem o).description != "Unknown Item") = true := by simp [hui]
        simp only [specSanitizeItem, hne, this, Bool.and_self, if_true]
        rw [ih]
    | nonobj =>
      rw [List.filterMap_cons, List.map_cons]
      simp only
      have hdesc : (specSanitizeItem JItem.nonobj).description = "Unknown Item" := by decide
      rw [List.filter_cons]
      simp only [specSanitizeItem] at hdesc
      simp only [specSanitizeItem, hdesc]
      simpa using ih

/-- C5: `sanitizeLineItems` computes exactly the claim's pipeline — every
item mapped to the sanitized shape, items whose description sanitizes to
`"Unknown Item"` removed, the single fixed placeholder substituted when
nothing survives — and its result is never empty. -/
theorem sanitizeLineItems_spec (items : List JItem) :
    sanitizeLineItems items = specLineItemPipeline items ∧ sanitizeLineItems items ≠ [] := by
  unfold sanitizeLineItems specLineItemPipeline
  rw [sanitizeLineItems_filter_eq]
  constructor
  · rfl
  · by_cases h : ((items.map specSanitizeItem).filter
        fun it => it.description != "Unknown Item") = []
    · simp [h]
    · simp [h]

/-! ## Claim C8 -/

lemma tryProviderGo_no_retry (rateTest : JsError → Bool) (waitOf : JsError → ℕ)
    (oracle : ℕ → CallResult) (fuel a : ℕ) (e : JsError)
    (he : oracle a = .err e) (hr : rateTest e = false) :
    tryProviderGo rateTest waitOf oracle fuel a
      = (⟨false, none, some e.message⟩, ⟨[a], []⟩) := by
  rw [tryProviderGo, he]
  simp [hr]

lemma tryProviderGo_calls_length (rateTest : JsError → Bool) (waitOf : JsError → ℕ)
    (oracle : ℕ → CallResult) :
    ∀ fuel a, (tryProviderGo rateTest waitOf oracle fuel a).2.calls.length ≤ fuel + 1 := by
  intro fuel
  induction fuel with
  | zero =>
    intro a
    rw [tryProviderGo]
    cases hc : oracle a with
    | ok data => by_cases hv : validateExtractedData data <;> simp [hv]
    | err e =>
      by_cases hr : rateTest e
      · by_cases ha : a < maxRetries <;> simp [hr, ha]
      · simp [hr]
  | succ fuel ih =>
    intro a
    rw [tryProviderGo]
    cases hc : oracle a with
    | ok data => by_cases hv : validateExtractedData data <;> simp [hv]
    | err e =>
      by_cases hr : rateTest e
      · by_cases ha : a < maxRetries
        · simp only [hr, ha, if_true]
          have := ih (a + 1)
          simp only [List.length_cons]
          omega
        · simp [hr, ha]
      · simp [hr]

lemma tryProviderGo_waits (rateTest : JsError → Bool) (waitOf : JsError → ℕ)
    (oracle : ℕ → CallResult) :
    ∀ fuel a, ∀ w ∈ (tryProviderGo rateTest waitOf oracle fuel a).2.waits,
      ∃ i e, oracle i = .err e ∧ rateTest e = true ∧ w = waitOf e := by
  intro fuel
  induction fuel with
  | zero =>
    intro a w hw
    rw [tryProviderGo] at hw
    cases hc : oracle a with
    | ok data =>
      rw [hc] at hw
      by_cases hv : validateExtractedData data <;> simp [hv] at hw
    | err e =>
      rw [hc] at hw
      by_cases hr : rateTest e
      · by_cases ha : a < maxRetries <;> simp [hr, ha] at hw
      · simp [hr] at hw
  | succ fuel ih =>
    intro a w hw
    rw [tryProviderGo] at hw
    cases hc : oracle a with
    | ok data =>
      rw [hc] at hw
      by_cases hv : validateExtractedData data <;> simp [hv] at hw
    | err e =>
      rw [hc] at hw
      by_cases hr : rateTest e
      · by_cases ha : a < maxRetries
        · simp only [hr, ha, if_true, List.mem_cons] at hw
          rcases hw with hw | hw
          · exact ⟨a, e, hc, hr, hw⟩
          · exact ih (a + 1) w hw
        · simp [hr, ha] at hw
      · simp [hr] at hw

lemma tryProviderGo_all_rl_calls (rateTest : JsError → Bool) (waitOf : JsError → ℕ)
    (oracle : ℕ → CallResult)
    (h : ∀ i, ∃ e, oracle i = .err e ∧ rateTest e = true) :
    (tryProviderGo rateTest waitOf oracle 2 1).2.calls = [1, 2, 3] := by
  obtain ⟨e1, he1, hr1⟩ := h 1
  obtain ⟨e2, he2, hr2⟩ := h 2
  obtain ⟨e3, he3, hr3⟩ := h 3
  have s3 : tryProviderGo rateTest waitOf oracle 0 3
      = (⟨false, none, some "Rate limit exceeded, max retries reached"⟩, ⟨[3], []⟩) := by
    rw [tryProviderGo, he3]
    simp [hr3, maxRetries]
  have s2 : tryProviderGo rateTest waitOf oracle 1 2
      = ((tryProviderGo rateTest waitOf oracle 0 3).1,
         ⟨2 :: (tryProviderGo rateTest waitOf oracle 0 3).2.calls,
          waitOf e2 :: (tryProviderGo rateTest waitOf oracle 0 3).2.waits⟩) := by
    rw [tryProviderGo, he2]
    simp [hr2, maxRetries]
  have s1 : tryProviderGo rateTest waitOf oracle 2 1
      = ((tryProviderGo rateTest waitOf oracle 1 2).1,
         ⟨1 :: (tryProviderGo rateTest waitOf oracle 1 2).2.calls,
          waitOf e1 :: (tryProviderGo rateTest waitOf oracle 1 2).2.waits⟩) := by
    rw [tryProviderGo, he1]
    simp [hr1, maxRetries]
  rw [s1, s2, s3]

/-- C8 (amended): within one provider's attempt sequence a rate-limit error
(HTTP 429; for Groq also a message containing `rate limit`) is retried up to
3 attempts total; every retry wait of the Gemini loop is
`extractRetryDelay(message) || 2000` for the rate-limit error that triggered
it, while the Groq loop always waits the fixed 2000 ms (it never consults
the payload); any non-rate-limit error ends the loop at one call with the
error propagated. -/
theorem retry_policy_amended (oracle : ℕ → CallResult) :
    ((tryGemini oracle).2.calls.length ≤ maxRetries ∧
     (tryGroq oracle).2.calls.length ≤ maxRetries) ∧
    ((∀ i, ∃ e, oracle i = .err e ∧ geminiRateLimited e = true) →
      (tryGemini oracle).2.calls = [1, 2, 3]) ∧
    ((∀ i, ∃ e, oracle i = .err e ∧ groqRateLimited e = true) →
      (tryGroq oracle).2.calls = [1, 2, 3]) ∧
    (∀ w ∈ (tryGemini oracle).2.waits, ∃ i e, oracle i = .err e ∧
      geminiRateLimited e = true ∧ w = geminiRetryAfter e.message) ∧
    (∀ w ∈ (tryGroq oracle).2.waits, w = retryDelay) ∧
    (∀ e, oracle 1 = .err e → geminiRateLimited e = false →
      (tryGemini oracle).1 = ⟨false, none, some e.message⟩ ∧
      (tryGemini oracle).2.calls = [1]) ∧
    (∀ e, oracle 1 = .err e → groqRateLimited e = false →
      (tryGroq oracle).1 = ⟨false, none, some e.message⟩ ∧
      (tryGroq oracle).2.calls = [1]) := by
  refine ⟨⟨?_, ?_⟩, ?_, ?_, ?_, ?_, ?_, ?_⟩
  · exact tryProviderGo_calls_length _ _ _ 2 1
  · exact tryProviderGo_calls_length _ _ _ 2 1
  · intro h
    exact tryProviderGo_all_rl_calls _ _ _ h
  · intro h
    exact tryProviderGo_all_rl_calls _ _ _ h
  · exact tryProviderGo_waits _ _ _ 2 1
  · intro w hw
    obtain ⟨i, e, _, _, hweq⟩ := tryProviderGo_waits _ _ _ 2 1 w hw
    exact hweq
  · intro e he hr
    have := tryProviderGo_no_retry geminiRateLimited (fun e => geminiRetryAfter e.message)
      oracle 2 1 e he hr
    unfold tryGemini
    rw [show maxRetries - 1 = 2 from rfl, this]
    exact ⟨rfl, rfl⟩
  · intro e he hr
    have := tryProviderGo_no_retry groqRateLimited (fun _ => retryDelay)
      oracle 2 1 e he hr
    unfold tryGroq
    rw [show maxRetries - 1 = 2 from rfl, this]
    exact ⟨rfl, rfl⟩

/-- A Groq rate-limit error whose payload advertises a 7-second retry delay. -/
def c8Error : JsError := ⟨some 429, "quota exceeded \"retryDelay\":\"7s\""⟩

def c8Oracle : ℕ → CallResult := fun _ => .err c8Error

/-- Counterexample to C8 as stated: the Groq error payload advertises a
7000 ms delay (`extractRetryDelay` parses it), yet both waits of the Groq
retry loop are the fixed 2000 ms — the payload-advertised delay is not used
on the Groq path. -/
theorem groq_ignores_payload_delay_counterexample :
    extractRetryDelay c8Error.message = some 7000 ∧
    groqRateLimited c8Error = true ∧
    (tryGroq c8Oracle).2.waits = [retryDelay, retryDelay] ∧
    retryDelay ≠ 7000 := by
  refine ⟨by decide, by decide, by decide, by decide⟩

def plainErrCalls : ℕ → CallResult := fun _ => .err ⟨none, "boom"⟩

def rl429Calls : ℕ → CallResult := fun _ => .err ⟨some 429, "over"⟩

/-- Witness for the amended C8: a plain error is not retried on either path,
and an always-429 behaviour is called exactly 3 times on either path. -/
theorem retry_policy_amended_witness :
    ((tryGemini plainErrCalls).1 = ⟨false, none, some "boom"⟩ ∧
     (tryGemini plainErrCalls).2.calls = [1]) ∧
    ((tryGroq plainErrCalls).1 = ⟨false, none, some "boom"⟩ ∧
     (tryGroq plainErrCalls).2.calls = [1]) ∧
    (tryGemini rl429Calls).2.calls = [1, 2, 3] ∧
    (tryGroq rl429Calls).2.calls = [1, 2, 3] :=
  ⟨(retry_policy_amended plainErrCalls).2.2.2.2.2.1 ⟨none, "boom"⟩ rfl (by decide),
   (retry_policy_amended plainErrCalls).2.2.2.2.2.2 ⟨none, "boom"⟩ rfl (by decide),
   (retry_policy_amended rl429Calls).2.1 (fun _ => ⟨⟨some 429, "over"⟩, rfl, by decide⟩),
   (retry_policy_amended rl429Calls).2.2.1 (fun _ => ⟨⟨some 429, "over"⟩, rfl, by decide⟩)⟩

/-! ## Claim C6: per-field lemmas -/

lemma jsStrOr_trimmed (v : Option String) (fb : String) (hfb : jsTrim fb = fb) :
    jsTrim (jsStrOr v fb) = jsStrOr v fb := by
  cases v with
  | none => simpa [jsStrOr] using hfb
  | some s =>
    by_cases hs : jsTrim s = ""
    · simpa [jsStrOr, hs] using hfb
    · simp [jsStrOr, hs, jsTrim_jsTrim]

lemma jsStrOr_idem (v : Option String) (fb fb' : String)
    (hfb : jsTrim fb = fb) (hne : fb ≠ "") :
    jsStrOr (some (jsStrOr v fb)) fb' = jsStrOr v fb := by
  cases v with
  | none => simp [jsStrOr, hfb, hne]
  | some s =>
    by_cases hs : jsTrim s = ""
    · simp [jsStrOr, hs, hfb, hne]
    · simp [jsStrOr, hs, jsTrim_jsTrim]

lemma jsStrOrUndef_idem (v : Option String) :
    jsStrOrUndef (jsStrOrUndef v) = jsStrOrUndef v := by
  cases v with
  | none => rfl
  | some s =>
    by_cases hs : jsTrim s = ""
    · simp [jsStrOrUndef, hs]
    · simp [jsStrOrUndef, hs, jsTrim_jsTrim]

lemma jsNumOrUndef_idem (v : Option ℚ) :
    jsNumOrUndef (jsNumOrUndef v) = jsNumOrUndef v := by
  cases v with
  | none => rfl
  | some q =>
    by_cases hq : q = 0
    · simp [jsNumOrUndef, hq]
    · simp [jsNumOrUndef, hq]

lemma invPlaceholder_nonWS (clk : Clock) :
    ∀ c ∈ (invPlaceholder clk).data, isWS c = false := by
  intro c hc
  unfold invPlaceholder at hc
  rw [String.data_append] at hc
  rcases List.mem_append.mp hc with h | h
  · have : c ∈ ("INV-" : String).data := h
    fin_cases this <;> decide
  · exact natToDigitsAux_not_isWS clk.nowMs clk.nowMs c h

lemma invPlaceholder_trim (clk : Clock) : jsTrim (invPlaceholder clk) = invPlaceholder clk :=
  jsTrim_eq_self_of_nonWS _ (invPlaceholder_nonWS clk)

lemma invPlaceholder_ne_empty (clk : Clock) : invPlaceholder clk ≠ "" := by
  apply string_ne_empty_of_data_ne_nil
  unfold invPlaceholder
  rw [String.data_append]
  simp

lemma validateAndFormatDate_out {w : Option String} {s : String}
    (h : validateAndFormatDate w = some s) :
    ∃ dt, ValidCivilDate dt ∧ s = fmtISODate dt := by
  unfold validateAndFormatDate at h
  cases w with
  | none => exact absurd h (by simp)
  | some s0 =>
    dsimp only at h
    by_cases h0 : s0 = ""
    · rw [if_pos h0] at h
      exact absurd h (by simp)
    · rw [if_neg h0] at h
      cases hp : parseISODate s0 with
      | none => rw [hp] at h; exact absurd h (by simp)
      | some dt =>
        rw [hp] at h
        simp only [Option.map_some'] at h
        injection h with h
        exact ⟨dt, parseISODate_valid hp, h.symm⟩

lemma date_refix (D fb : String) (hD : ∃ dt, ValidCivilDate dt ∧ D = fmtISODate dt) :
    jsOrDefault (validateAndFormatDate (some D)) fb = D := by
  obtain ⟨dt, hv, rfl⟩ := hD
  unfold validateAndFormatDate
  dsimp only
  rw [if_neg (fmtISODate_ne_empty dt), parseISODate_fmtISODate dt hv]
  simp [jsOrDefault, fmtISODate_ne_empty dt]

lemma date_idem (w : Option String) (today today' : CivilDate) (h : ValidCivilDate today) :
    jsOrDefault (validateAndFormatDate (some
        (jsOrDefault (validateAndFormatDate w) (fmtISODate today)))) (fmtISODate today')
      = jsOrDefault (validateAndFormatDate w) (fmtISODate today) := by
  cases hv : validateAndFormatDate w with
  | none =>
    simp only [jsOrDefault]
    exact date_refix _ _ ⟨today, h, rfl⟩
  | some s =>
    obtain ⟨dt, hvd, rfl⟩ := validateAndFormatDate_out hv
    have hred : jsOrDefault (some (fmtISODate dt)) (fmtISODate today) = fmtISODate dt := by
      simp [jsOrDefault, fmtISODate_ne_empty dt]
    rw [hred]
    exact date_refix _ _ ⟨dt, hvd, rfl⟩

lemma poDate_idem (w : Option String) :
    jsOrUndef (validateAndFormatDate (jsOrUndef (validateAndFormatDate w)))
      = jsOrUndef (validateAndFormatDate w) := by
  cases hv : validateAndFormatDate w with
  | none => rfl
  | some s =>
    obtain ⟨dt, hvd, rfl⟩ := validateAndFormatDate_out hv
    have hred : jsOrUndef (some (fmtISODate dt)) = some (fmtISODate dt) := by
      simp [jsOrUndef, fmtISODate_ne_empty dt]
    rw [hred]
    unfold validateAndFormatDate
    dsimp only
    rw [if_neg (fmtISODate_ne_empty dt), parseISODate_fmtISODate dt hvd]
    simpa using hred

/-! ## Claim C6: line-item lemmas -/

/-- The invariant every item output by `sanitizeLineItems` satisfies. -/
def ItemFixed (it : SanLineItem) : Prop :=
  jsTrim it.description = it.description ∧ it.description ≠ "" ∧
    it.description ≠ "Unknown Item" ∧ it.quantity ≠ 0

lemma jsNumOr_one_ne_zero (v : Option ℚ) : jsNumOr v 1 ≠ 0 := by
  cases v with
  | none => simp [jsNumOr]
  | some q =>
    by_cases hq : q = 0 <;> simp [jsNumOr, hq]

lemma sanitizeItem_desc_trimmed (o : JLineItem) :
    jsTrim (sanitizeItem o).description = (sanitizeItem o).description :=
  jsStrOr_trimmed o.description "Unknown Item" (by decide)

lemma sanitizeLineItems_ne_nil (items : List JItem) : sanitizeLineItems items ≠ [] := by
  unfold sanitizeLineItems
  by_cases h : ((items.filterMap fun it =>
      match it with
      | .obj o => some (sanitizeItem o)
      | .nonobj => none).filter
      fun it => it.description != "" && it.description != "Unknown Item") = []
  · simp [h]
  · simp [h]

lemma sanitizeLineItems_fixed (items : List JItem) :
    ∀ it ∈ sanitizeLineItems items, ItemFixed it := by
  intro it hit
  unfold sanitizeLineItems at hit
  dsimp only at hit
  split at hit
  · -- placeholder branch
    simp only [List.mem_singleton] at hit
    subst hit
    refine ⟨by decide, by decide, by decide, by decide⟩
  · -- filtered branch
    rw [List.mem_filter] at hit
    obtain ⟨hmem, hpred⟩ := hit
    rw [List.mem_filterMap] at hmem
    obtain ⟨a, _, ha⟩ := hmem
    simp only [Bool.and_eq_true, bne_iff_ne, ne_eq] at hpred
    cases a with
    | obj o =>
      simp only at ha
      injection ha with ha
      subst ha
      exact ⟨sanitizeItem_desc_trimmed o, hpred.1, hpred.2, jsNumOr_one_ne_zero _⟩
    | nonobj => simp at ha

lemma sanitizeItem_toJItem_eq (it : SanLineItem) (h : ItemFixed it) :
    sanitizeItem ⟨some it.description, some it.unitPrice, some it.quantity, some it.total⟩
      = it := by
  obtain ⟨d, p, q, t⟩ := it
  obtain ⟨htrim, hne, _, hq⟩ := h
  simp only at htrim hne hq
  unfold sanitizeItem jsStrOr jsNumOr
  simp only
  rw [htrim, if_neg hne, if_neg hq]
  by_cases hp : p = 0 <;> by_cases ht : t = 0 <;> simp [hp, ht]

lemma filterMap_map_toJItem (l : List SanLineItem) (h : ∀ it ∈ l, ItemFixed it) :
    ((l.map SanLineItem.toJItem).filterMap fun it =>
      match it with
      | JItem.obj o => some (sanitizeItem o)
      | JItem.nonobj => none) = l := by
  induction l with
  | nil => rfl
  | cons hd tl ih =>
    rw [List.map_cons, List.filterMap_cons]
    simp only [SanLineItem.toJItem]
    rw [sanitizeItem_toJItem_eq hd (h hd (by simp))]
    rw [ih (fun it hit => h it (by simp [hit]))]

lemma lineItems_idem (items : List JItem) :
    sanitizeLineItems ((sanitizeLineItems items).map SanLineItem.toJItem)
      = sanitizeLineItems items := by
  have hfix := sanitizeLineItems_fixed items
  have hne := sanitizeLineItems_ne_nil items
  conv_lhs => rw [sanitizeLineItems]
  rw [filterMap_map_toJItem _ hfix]
  have hfilter : (sanitizeLineItems items).filter
      (fun it => it.description != "" && it.description != "Unknown Item")
      = sanitizeLineItems items := by
    rw [List.filter_eq_self]
    intro a ha
    obtain ⟨_, hne1, hne2, _⟩ := hfix a ha
    simp [hne1, hne2]
  rw [hfilter]
  simp [hne]

/-- C6: sanitization is idempotent.  `sanitizeExtractedData` is
time-dependent (`INV-${Date.now()}` and current-date fallbacks), so the
clock of each pass is explicit: re-sanitizing at any later clock changes
nothing, provided the first pass ran at a clock whose current date is a
representable civil date (true of any real run). -/
theorem sanitizeExtractedData_idempotent (clk clk' : Clock) (c : JCandidate)
    (htoday : ValidCivilDate clk.today) :
    sanitizeExtractedData clk' (sanitizeExtractedData clk c)
      = sanitizeExtractedData clk c := by
  unfold sanitizeExtractedData
  dsimp only [Option.some_bind, Option.getD]
  rw [jsStrOr_idem _ _ _ (by decide) (by decide)]
  rw [jsStrOrUndef_idem, jsStrOrUndef_idem]
  rw [jsStrOr_idem _ _ _ (invPlaceholder_trim clk) (invPlaceholder_ne_empty clk)]
  rw [date_idem _ _ _ htoday]
  rw [jsStrOr_idem _ _ _ (by decide) (by decide)]
  rw [jsNumOrUndef_idem, jsNumOrUndef_idem, jsNumOrUndef_idem]
  rw [jsStrOrUndef_idem]
  rw [poDate_idem]
  rw [lineItems_idem]

/-- Another concrete clock (a different pass time for the witness). -/
def clk1 : Clock := ⟨999, ⟨2025, 12, 31⟩⟩

/-- A concrete candidate exercising trim fallbacks, zero/NaN numerics, a
leap-day date, an invalid PO date, and a non-object line-item entry. -/
def idemCandidate : JCandidate :=
  { vendor := some ⟨some "  Pad Vendor  ", some "   ", none⟩,
    invoice := some
      { number := some "abc", date := some "2024-02-29", currency := none,
        subtotal := some 5, taxPercent := some 0, total := none,
        poNumber := some " po ", poDate := some "2023-13-01",
        lineItems := some [JItem.obj ⟨some "  x ", none, some 2, some 3⟩, JItem.nonobj] } }

/-- Witness for C6 at concrete clocks and candidate. -/
theorem sanitizeExtractedData_idempotent_witness :
    ValidCivilDate clk0.today ∧
    sanitizeExtractedData clk1 (sanitizeExtractedData clk0 idemCandidate)
      = sanitizeExtractedData clk0 idemCandidate :=
  ⟨by decide, sanitizeExtractedData_idempotent clk0 clk1 idemCandidate (by decide)⟩
